import Mathlib

/-!
Verification of the live interview-evaluation client/server
(`client/src/useStreamingTranscription.js`, `client/src/Interview.jsx`,
`server/routes/evaluate.js`) against its natural-language specification.

Strings are modelled as Lean `String`s over their character lists; JavaScript
`toLowerCase` is modelled per-character (the transcripts and questions involved
are ASCII); JS `string.length` (UTF-16 units) is modelled by character count,
which agrees on ASCII.  The fractional threshold `words.length * 0.35` of the
question heuristic is modelled exactly as the rational comparison
`20 * matchCount >= 7 * words.length`; this agrees with the JS double
computation except possibly on exact-boundary word counts, which no claim
exercises.
-/

/- ================================================================
   Section 1: streaming-turn aggregation
   (useStreamingTranscription.js, ws.onmessage, lines 239-254)

   `turnsMapRef.current` is a JS object keyed by the numeric `turn_order`;
   assignment `turnsMapRef.current[turn_order] = turnText` overwrites the
   value for an existing key in place and otherwise adds the key.  We model
   it as an association list in arrival order with unique keys.
   ================================================================ -/

/-- Turns map of the transcription hook: `(turn_order, turn text)` pairs in
arrival order, keys unique. -/
abbrev TurnsMap := List (Nat × String)

/-- Model of `turnsMapRef.current[turn_order] = turnText`: overwrite the entry
for the key if present (keeping its position), else append the pair. -/
def applyTurn : TurnsMap → Nat → String → TurnsMap
  | [], k, v => [(k, v)]
  | (k', v') :: rest, k, v =>
    if k' = k then (k, v) :: rest else (k', v') :: applyTurn rest k v

/-- Model of `map[k]` for a key expected to be present: association lookup,
defaulting to the empty string. -/
def lookupTurn (m : TurnsMap) (k : Nat) : String :=
  (m.lookup k).getD ""

/-- Model of
`Object.keys(map).sort((a,b)=>Number(a)-Number(b)).map(k=>map[k]).join(' ')`:
sort the keys numerically ascending, read each entry, join with one space. -/
def currentTranscript (m : TurnsMap) : String :=
  String.intercalate " "
    ((List.insertionSort (· ≤ ·) (m.map Prod.fst)).map (fun k => lookupTurn m k))

/-- Replay of a whole sequence of `Turn` messages starting from the empty map. -/
def applyTurns (msgs : List (Nat × String)) : TurnsMap :=
  msgs.foldl (fun m p => applyTurn m p.1 p.2) []

/-- The turns map with its entries sorted ascending by `turn_order`; used to
state what `currentTranscript` computes. -/
def sortedTurns (m : TurnsMap) : TurnsMap :=
  List.insertionSort (fun p q => p.1 ≤ q.1) m

instance : IsTotal (Nat × String) (fun p q => p.1 ≤ q.1) :=
  ⟨fun a b => Nat.le_total a.1 b.1⟩

instance : IsTrans (Nat × String) (fun p q => p.1 ≤ q.1) :=
  ⟨fun _ _ _ h h' => Nat.le_trans h h'⟩

/- ================================================================
   Section 2: suggested-question reconciliation heuristic
   (Interview.jsx, questionAskedInTranscript, lines 27-37)
   ================================================================ -/

/-- Substring test on character lists, model of JS `String.prototype.includes`:
true iff the first list occurs contiguously inside the second. -/
def hasSub (needle : List Char) : List Char → Bool
  | [] => needle.isEmpty
  | c :: rest => needle.isPrefixOf (c :: rest) || hasSub needle rest

/-- Model of `t.includes(q)`. -/
def jsIncludes (t q : String) : Bool := hasSub q.toList t.toList

/-- Per-character lowercasing, the ASCII behaviour of JS `toLowerCase`. -/
def jsToLower (s : String) : String := String.mk (s.toList.map Char.toLower)

/-- Model of `replace(/[?!.]/g, '')`: remove every question mark, exclamation
mark and period, at any position. -/
def stripPunct (s : String) : String :=
  String.mk (s.toList.filter (fun c => !(c == '?' || c == '!' || c == '.')))

/-- Model of JS `trim()`: drop whitespace from both ends. -/
def jsTrim (s : String) : String :=
  String.mk (((s.toList.dropWhile Char.isWhitespace).reverse.dropWhile
    Char.isWhitespace).reverse)

/-- Whitespace-run splitter, model of `split(/\s+/)` applied to the trimmed
question (the JS call yields no empty chunks except on the empty string, and
that chunk is removed by the later word-length filter anyway). -/
def splitWsAux : List Char → List Char → List String
  | [], acc => if acc.isEmpty then [] else [String.mk acc.reverse]
  | c :: cs, acc =>
    if c.isWhitespace then
      if acc.isEmpty then splitWsAux cs [] else String.mk acc.reverse :: splitWsAux cs []
    else splitWsAux cs (c :: acc)

/-- Split a string into its whitespace-separated words. -/
def splitWs (s : String) : List String := splitWsAux s.toList []

/-- Stop-word set of the heuristic, verbatim from Interview.jsx line 32. -/
def stopWords : List String :=
  ["the", "a", "an", "and", "or", "but", "in", "on", "at", "to", "for", "of",
   "with", "by", "from", "as", "is", "was", "are", "were", "been", "be",
   "have", "has", "had", "do", "does", "did", "will", "would", "could",
   "should", "may", "might", "must", "can", "you", "your", "me", "my", "we",
   "our", "they", "their", "it", "its", "this", "that", "what", "which",
   "who", "how", "when", "where", "why"]

/-- Normalized question: `question.toLowerCase().replace(/[?!.]/g, '').trim()`. -/
def normQ (question : String) : String := jsTrim (stripPunct (jsToLower question))

/-- Significant words of the normalized question:
`q.split(/\s+/).filter((w) => w.length > 2 && !stopWords.has(w))`. -/
def sigWords (q : String) : List String :=
  (splitWs q).filter (fun w => decide (2 < w.length) && !(stopWords.contains w))

/-- Number of significant words found in the transcript:
`words.filter((w) => t.includes(w)).length`. -/
def matchCount (t : String) (ws : List String) : Nat :=
  (ws.filter (fun w => jsIncludes t w)).length

/-- Model of `questionAskedInTranscript(question, transcript)`, Interview.jsx
lines 27-37: the guard `!question || !transcript || transcript.length < 30`,
normalization of the question only, the short-question verbatim branch, the
fewer-than-two-significant-words fallback `t.includes(q.slice(0, 40))`, and the
word-overlap thresholds.  The JS float comparison
`matchCount >= words.length * 0.35` is modelled exactly as
`7 * words.length <= 20 * matchCount`. -/
def questionAskedInTranscript (question transcript : String) : Bool :=
  if question = "" ∨ transcript = "" ∨ transcript.length < 30 then false
  else if (normQ question).length < 15 then
    jsIncludes (jsToLower transcript) (normQ question)
  else if (sigWords (normQ question)).length < 2 then
    jsIncludes (jsToLower transcript) (String.mk ((normQ question).toList.take 40))
  else
    decide (min 3 (sigWords (normQ question)).length ≤
        matchCount (jsToLower transcript) (sigWords (normQ question)) ∧
      7 * (sigWords (normQ question)).length ≤
        20 * matchCount (jsToLower transcript) (sigWords (normQ question)))

/-- Reconciliation predicate exactly as claim C6 words it, for comparison with
the source function: lowercase and punctuation-strip BOTH the question and the
transcript; a short normalized question is asked iff it occurs verbatim in the
normalized transcript; a longer one is asked iff at least `min 3 n` of its `n`
significant (non-stop-word) words and at least 35% of them occur in the
normalized transcript.  The claim states no special case for questions with
fewer than two significant words. -/
def questionAskedClaim (question transcript : String) : Bool :=
  if question = "" ∨ transcript = "" ∨ transcript.length < 30 then false
  else if (normQ question).length < 15 then
    jsIncludes (normQ transcript) (normQ question)
  else
    decide (min 3 (sigWords (normQ question)).length ≤
        matchCount (normQ transcript) (sigWords (normQ question)) ∧
      7 * (sigWords (normQ question)).length ≤
        20 * matchCount (normQ transcript) (sigWords (normQ question)))

/- ================================================================
   Section 3: crash-recovery snapshot persistence
   (Interview.jsx, savePendingReport / clearPendingReport /
   getPendingReport, lines 49-83)
   ================================================================ -/

/-- Snapshot persisted under `localStorage["interviewPendingReport"]`. -/
structure PendingReport where
  transcript : String
  turns : List String
  recipientEmail : Option String
  selectedRole : String
  savedAt : Nat
deriving DecidableEq

/-- Retention window of the recovery snapshot: `24 * 60 * 60 * 1000` ms. -/
def RETENTION_MS : Nat := 24 * 60 * 60 * 1000

/-- Model of JS `x || null` on an optional string: an empty or missing string
falls back to null. -/
def jsOrString (x : Option String) : Option String :=
  match x with
  | some v => if v = "" then none else some v
  | none => none

/-- Model of `savePendingReport(transcript, turns, recipientEmail,
selectedRole)`: the object written to storage, with the JS `||` fallbacks and
`savedAt: Date.now()`. -/
def savePendingReport (transcript : String) (turns : List String)
    (recipientEmail : Option String) (selectedRole : String) (now : Nat) :
    PendingReport :=
  { transcript := transcript
    turns := turns
    recipientEmail := jsOrString recipientEmail
    selectedRole := if selectedRole = "" then "vp-sales" else selectedRole
    savedAt := now }

/-- Model of `getPendingReport()`, Interview.jsx lines 69-83: given the stored
snapshot (already parsed; absent or corrupt storage is `none`) and `Date.now()`,
return the offered snapshot and the storage contents afterwards.  The
`!data.transcript` truthiness test rejects an empty transcript (without
clearing storage); a snapshot strictly older than 24 hours is cleared and not
offered; otherwise the parsed data is returned as is. -/
def getPendingReport :
    Option PendingReport → Nat → Option PendingReport × Option PendingReport
  | none, _ => (none, none)
  | some d, now =>
    if d.transcript = "" then (none, some d)
    else if (now : Int) - (d.savedAt : Int) > (RETENTION_MS : Int) then (none, none)
    else (some d, some d)

/- ================================================================
   Section 4: final-evaluation transcript truncation
   (server/routes/evaluate.js, evaluateFinal, lines 185-208)
   ================================================================ -/

/-- Size bound on the transcript sent for final evaluation (evaluate.js
`MAX_TRANSCRIPT_CHARS`). -/
def MAX_TRANSCRIPT_CHARS : Nat := 36000

/-- Omission notice appended when the transcript is truncated, verbatim from
evaluateFinal. -/
def OMISSION_NOTICE : String :=
  "\n\n[Note: Earlier part of transcript omitted for length. Above is the final portion of the interview.]"

/-- Model of `transcript.slice(-n)` for `0 < n ≤ length`: the last `n`
characters. -/
def sliceLast (s : String) (n : Nat) : String :=
  String.mk (s.toList.drop (s.length - n))

/-- Transcript actually passed to the scoring backend (`transcriptForEval` in
evaluateFinal): unchanged when within the bound, otherwise the trailing
`MAX_TRANSCRIPT_CHARS` characters followed by the omission notice. -/
def transcriptForEval (transcript : String) : String :=
  if transcript.length ≤ MAX_TRANSCRIPT_CHARS then transcript
  else sliceLast transcript MAX_TRANSCRIPT_CHARS ++ OMISSION_NOTICE

/-- A transcript of 36001 identical characters, used as a concrete
over-the-bound input. -/
def hugeTranscript : String := String.mk (List.replicate 36001 'x')

/- ================================================================
   Section 5: final-evaluation driver
   (Interview.jsx, runFinalEvaluation, lines 195-211)
   ================================================================ -/

/-- Raw final-evaluation payload parsed from the backend; its content is
irrelevant to the snapshot lifecycle, so it is kept as the raw text. -/
abbrev EvalResult := String

/-- Outcome surfaced to the FinalReport view (`setFinalResult` argument). -/
inductive FinalOutcome where
  | success (result : EvalResult)
  | failure (message : String)
deriving DecidableEq

/-- Observable effects of `runFinalEvaluation`, in program order. -/
inductive FinalEvalEvent where
  | savePending (snap : PendingReport)
  | request (transcript : String) (turns : List String) (role : String)
  | clearPending
  | setFinalResult (r : FinalOutcome)
deriving DecidableEq

/-- Model of `runFinalEvaluation`: the ordered effects it performs, given its
inputs and the eventual outcome of the `evaluateFinal` network call.  With a
blank transcript it only reports an error; otherwise it saves the snapshot,
issues the request, and on success clears the snapshot before surfacing the
result, while on failure it surfaces the error and leaves the snapshot. -/
def runFinalEvaluation (transcript : String) (turns : List String)
    (recipientEmail : Option String) (selectedRole : String) (now : Nat)
    (outcome : Except String EvalResult) : List FinalEvalEvent :=
  if jsTrim transcript = "" then
    [FinalEvalEvent.setFinalResult (FinalOutcome.failure "No transcript to evaluate.")]
  else
    FinalEvalEvent.savePending
        (savePendingReport transcript turns recipientEmail selectedRole now) ::
    FinalEvalEvent.request transcript turns selectedRole ::
    (match outcome with
     | Except.ok r =>
        [FinalEvalEvent.clearPending,
         FinalEvalEvent.setFinalResult (FinalOutcome.success r)]
     | Except.error e =>
        [FinalEvalEvent.setFinalResult (FinalOutcome.failure e)])

/-- Effect of one event on the persisted snapshot slot. -/
def applyFinalEvent (storage : Option PendingReport) :
    FinalEvalEvent → Option PendingReport
  | FinalEvalEvent.savePending s => some s
  | FinalEvalEvent.clearPending => none
  | _ => storage

/-- Storage contents after replaying a list of effects. -/
def replayStorage (storage : Option PendingReport) (evs : List FinalEvalEvent) :
    Option PendingReport :=
  evs.foldl applyFinalEvent storage

/- ================================================================
   Section 6: live-evaluation loop and suggested-question panel
   (Interview.jsx, fetchPartialEvaluation lines 151-180, the interval
   effect lines 183-193, the questions prop lines 361-369;
   useStreamingTranscription.js, stop, lines 30-48)
   ================================================================ -/

/-- One row of the live scores table (an entry of the JS `partial_scores`). -/
structure ScoreRow where
  name : String
  score : Int
  justification : String
deriving DecidableEq

/-- Stored live-evaluation state (the JS `partialResult` React state). -/
structure LiveEval where
  scores : List ScoreRow
  redFlags : List String
  strengths : List String
  currentImpression : String
deriving DecidableEq

/-- Suggested-question entry as stored in `suggestedQuestionsFromApi`
(JS fields `question`, `already_asked`, `category`, `weight_pct`). -/
structure SQItem where
  question : String
  alreadyAsked : Bool
  category : Option String
  weightPct : Option Nat
deriving DecidableEq

/-- Raw `suggested_questions` entry of the API response: a bare string or an
object with optional fields. -/
inductive RawSQ where
  | str (s : String)
  | obj (question : Option String) (alreadyAsked : Bool)
      (category : Option String) (weightPct : Option Nat)
deriving DecidableEq

/-- Mapping of a raw entry, Interview.jsx lines 164-173. -/
def mapRawSQ : RawSQ → SQItem
  | RawSQ.str s => ⟨s, false, none, none⟩
  | RawSQ.obj q a c w => ⟨q.getD "", a, c, w⟩

/-- Parsed body of a live-evaluation response, fields optional as in JSON. -/
structure ApiResult where
  scores : Option (List ScoreRow)
  redFlags : Option (List String)
  strengths : Option (List String)
  currentImpression : Option String
  suggested : Option (List RawSQ)
deriving DecidableEq

/-- Payload of `setPartialResult` built from a response (`|| []` fallbacks). -/
def toLiveEval (r : ApiResult) : LiveEval :=
  ⟨r.scores.getD [], r.redFlags.getD [], r.strengths.getD [],
   r.currentImpression.getD ""⟩

/-- Payload of `setSuggestedQuestionsFromApi`: mapped raw list, first 10. -/
def toSuggestedList (r : ApiResult) : List SQItem :=
  ((r.suggested.getD []).map mapRawSQ).take 10

/-- Component state relevant to the live-evaluation loop. -/
structure InterviewState where
  isConnected : Bool
  inFlight : Nat
  questionsLoading : Bool
  liveEval : Option LiveEval
  suggestedFromApi : List SQItem
deriving DecidableEq

/-- Events of the loop: an interval tick (which invokes
`fetchPartialEvaluation` with the current transcript), the resolution of an
outstanding request, and the stop of the session. -/
inductive InterviewEvent where
  | tick (transcript : String)
  | resolve (outcome : Except String ApiResult)
  | stop

/-- Minimum transcript length before live-evaluation requests are issued
(Interview.jsx `MIN_TRANSCRIPT_FOR_QUESTIONS`). -/
def MIN_TRANSCRIPT_FOR_QUESTIONS : Nat := 60

/-- One step of the component.  A tick runs `fetchPartialEvaluation`, whose
only early return is the transcript guard
`!t.trim() || t.length < MIN_TRANSCRIPT_FOR_QUESTIONS` — the function reads no
in-flight flag, so a qualifying tick always issues another request.  A
resolution decrements the outstanding count, and a successful one
unconditionally merges the response into `partialResult` and the suggested
list (the code checks no still-live flag before merging).  `stop`
(useStreamingTranscription.js lines 30-48) synchronously closes the socket and
audio graph, modelled by `isConnected := false`; it leaves the
live-evaluation state untouched. -/
def stepInterview (s : InterviewState) : InterviewEvent → InterviewState
  | InterviewEvent.tick t =>
    if jsTrim t = "" ∨ t.length < MIN_TRANSCRIPT_FOR_QUESTIONS then s
    else { s with inFlight := s.inFlight + 1, questionsLoading := true }
  | InterviewEvent.resolve outcome =>
    if s.inFlight = 0 then s
    else
      match outcome with
      | Except.ok r =>
        { s with inFlight := s.inFlight - 1, questionsLoading := false,
                 liveEval := some (toLiveEval r),
                 suggestedFromApi := toSuggestedList r }
      | Except.error _ =>
        { s with inFlight := s.inFlight - 1, questionsLoading := false }
  | InterviewEvent.stop => { s with isConnected := false }

/-- Replay of a sequence of loop events. -/
def runInterview (s : InterviewState) (evs : List InterviewEvent) :
    InterviewState :=
  evs.foldl stepInterview s

/-- State when recording is live and no request has been issued yet. -/
def initInterviewState : InterviewState := ⟨true, 0, false, none, []⟩

/-- A 65-character transcript used in concrete runs (long enough for the
interval guard and for the reconciliation heuristic). -/
def sampleTranscript : String :=
  "so tell me about a time when you missed your quota target please"

/-- A concrete successful live-evaluation response. -/
def sampleApiResult : ApiResult :=
  ⟨some [⟨"Sales Leadership", 4, "solid examples"⟩], some [], some [],
   some "doing fine", some [RawSQ.str "What is your pipeline process?"]⟩

/-- Presented entry of the SuggestedQuestions panel. -/
structure PresentedQ where
  question : String
  alreadyAsked : Bool
  category : Option String
  weightPct : Option Nat
deriving DecidableEq

/-- Reconciliation of one list entry against the transcript (Interview.jsx
lines 364-369): the presented flag is the stored flag OR the transcript
heuristic. -/
def presentQuestion (item : SQItem) (transcript : String) : PresentedQ :=
  ⟨item.question,
   item.alreadyAsked || questionAskedInTranscript item.question transcript,
   item.category, item.weightPct⟩

/-- One reconciliation pass of the panel: the active list (API list if
nonempty, else the rubric list), capped at 10, each entry reconciled. -/
def presentQuestions (fromApi rubric : List SQItem) (transcript : String) :
    List PresentedQ :=
  ((if 0 < fromApi.length then fromApi else rubric).take 10).map
    (fun item => presentQuestion item transcript)

lemma lookup_applyTurn_self (m : TurnsMap) (k : Nat) (v : String) :
    (applyTurn m k v).lookup k = some v := by
  induction m with
  | nil => simp [applyTurn, List.lookup]
  | cons p rest ih =>
    obtain ⟨k', v'⟩ := p
    by_cases h : k' = k
    · simp [applyTurn, h, List.lookup]
    · simp only [applyTurn, if_neg h, List.lookup]
      have : (k == k') = false := by
        simp [beq_iff_eq]
        exact fun he => h he.symm
      simp [this, ih]

lemma applyTurn_of_not_mem (m : TurnsMap) (k : Nat) (v : String)
    (h : k ∉ m.map Prod.fst) : applyTurn m k v = m ++ [(k, v)] := by
  induction m with
  | nil => simp [applyTurn]
  | cons p rest ih =>
    obtain ⟨k', v'⟩ := p
    simp only [List.map_cons, List.mem_cons] at h
    push_neg at h
    have hne : ¬ k' = k := Ne.symm h.1
    simp [applyTurn, hne, ih h.2]

lemma applyTurns_eq_self_aux (L : List (Nat × String)) :
    ∀ m : TurnsMap, ((m ++ L).map Prod.fst).Nodup →
      L.foldl (fun acc p => applyTurn acc p.1 p.2) m = m ++ L := by
  induction L with
  | nil => intro m _; simp
  | cons p tl ih =>
    intro m hnd
    have hassoc : m ++ p :: tl = (m ++ [p]) ++ tl := by simp
    have hfresh : p.1 ∉ m.map Prod.fst := by
      rw [List.map_append] at hnd
      have hdisj := List.disjoint_of_nodup_append hnd
      intro hmem
      exact hdisj hmem (by simp)
    have hstep : applyTurn m p.1 p.2 = m ++ [p] := applyTurn_of_not_mem m p.1 p.2 hfresh
    have hnd' : (((m ++ [p]) ++ tl).map Prod.fst).Nodup := by
      rw [← hassoc]; exact hnd
    calc (p :: tl).foldl (fun acc q => applyTurn acc q.1 q.2) m
        = tl.foldl (fun acc q => applyTurn acc q.1 q.2) (applyTurn m p.1 p.2) := rfl
      _ = tl.foldl (fun acc q => applyTurn acc q.1 q.2) (m ++ [p]) := by rw [hstep]
      _ = (m ++ [p]) ++ tl := ih (m ++ [p]) hnd'
      _ = m ++ p :: tl := by simp

lemma applyTurns_eq_self (L : List (Nat × String))
    (h : (L.map Prod.fst).Nodup) : applyTurns L = L := by
  have := applyTurns_eq_self_aux L [] (by simpa using h)
  simpa [applyTurns] using this

lemma lookup_eq_some_of_mem (m : TurnsMap) (p : Nat × String)
    (hnd : (m.map Prod.fst).Nodup) (hmem : p ∈ m) :
    m.lookup p.1 = some p.2 := by
  induction m with
  | nil => cases hmem
  | cons q rest ih =>
    obtain ⟨k', v'⟩ := q
    simp only [List.map_cons, List.nodup_cons] at hnd
    rcases List.mem_cons.mp hmem with heq | htl
    · subst heq
      simp [List.lookup]
    · have hk : p.1 ≠ k' := by
        intro h
        exact hnd.1 (h ▸ List.mem_map.mpr ⟨p, htl, rfl⟩)
      have hbeq : (p.1 == k') = false := by simp [hk]
      simp [List.lookup, hbeq, ih hnd.2 htl]

lemma lookup_eq_none_of_not_mem (m : TurnsMap) (k : Nat)
    (h : k ∉ m.map Prod.fst) : m.lookup k = none := by
  induction m with
  | nil => simp [List.lookup]
  | cons p rest ih =>
    obtain ⟨k', v'⟩ := p
    simp only [List.map_cons, List.mem_cons] at h
    push_neg at h
    have hbeq : (k == k') = false := by simp [h.1]
    simp [List.lookup, hbeq, ih h.2]

lemma mem_of_lookup_eq_some (m : TurnsMap) (k : Nat) (v : String)
    (hl : m.lookup k = some v) : (k, v) ∈ m := by
  induction m with
  | nil => cases hl
  | cons q rest ih =>
    obtain ⟨k', v'⟩ := q
    by_cases hkk : k = k'
    · subst hkk
      simp [List.lookup] at hl
      cases hl
      exact List.mem_cons_self _ _
    · have hbeq : (k == k') = false := by simp [hkk]
      simp only [List.lookup, hbeq] at hl
      exact List.mem_cons_of_mem _ (ih hl)

lemma lookup_perm (m₁ m₂ : TurnsMap) (hp : m₁.Perm m₂)
    (hnd : (m₁.map Prod.fst).Nodup) (k : Nat) :
    m₁.lookup k = m₂.lookup k := by
  have hnd₂ : (m₂.map Prod.fst).Nodup := ((hp.map Prod.fst).nodup_iff).mp hnd
  cases hl : m₁.lookup k with
  | none =>
    have hk : k ∉ m₁.map Prod.fst := by
      intro hmem
      rcases List.mem_map.mp hmem with ⟨p, hmem', hfst⟩
      have hsome := lookup_eq_some_of_mem m₁ p hnd hmem'
      rw [hfst] at hsome
      rw [hsome] at hl
      cases hl
    have hk₂ : k ∉ m₂.map Prod.fst := fun hmem =>
      hk ((hp.map Prod.fst).mem_iff.mpr hmem)
    rw [lookup_eq_none_of_not_mem m₂ k hk₂]
  | some v =>
    have hmem : (k, v) ∈ m₁ := mem_of_lookup_eq_some m₁ k v hl
    exact (lookup_eq_some_of_mem m₂ (k, v) hnd₂ (hp.mem_iff.mp hmem)).symm

lemma sortedTurns_perm (m : TurnsMap) : (sortedTurns m).Perm m :=
  List.perm_insertionSort _ m

lemma sortedTurns_keys_sorted (m : TurnsMap) :
    List.Sorted (· ≤ ·) ((sortedTurns m).map Prod.fst) := by
  have h := List.sorted_insertionSort (fun p q : Nat × String => p.1 ≤ q.1) m
  exact List.Pairwise.map Prod.fst (fun _ _ hab => hab) h

lemma keys_sortedTurns (m : TurnsMap) :
    (sortedTurns m).map Prod.fst = List.insertionSort (· ≤ ·) (m.map Prod.fst) := by
  have hs₂ : List.Sorted (· ≤ ·) (List.insertionSort (· ≤ ·) (m.map Prod.fst)) :=
    List.sorted_insertionSort (· ≤ ·) (m.map Prod.fst)
  have hperm : ((sortedTurns m).map Prod.fst).Perm
      (List.insertionSort (· ≤ ·) (m.map Prod.fst)) :=
    ((sortedTurns_perm m).map Prod.fst).trans
      (List.perm_insertionSort (· ≤ ·) (m.map Prod.fst)).symm
  exact List.eq_of_perm_of_sorted hperm (sortedTurns_keys_sorted m) hs₂

lemma currentTranscript_eq_sorted_join (m : TurnsMap)
    (hnd : (m.map Prod.fst).Nodup) :
    currentTranscript m = String.intercalate " " ((sortedTurns m).map Prod.snd) := by
  unfold currentTranscript
  rw [← keys_sortedTurns m, List.map_map]
  congr 1
  refine List.map_congr_left ?_
  intro p hp
  have hmem : p ∈ m := (sortedTurns_perm m).mem_iff.mp hp
  have hsome : m.lookup p.1 = some p.2 := lookup_eq_some_of_mem m p hnd hmem
  simp [Function.comp, lookupTurn, hsome]

/-- C5: applying `(5, "foo")` then `(5, "bar")` leaves `"bar"` (not `"foo"`)
as the stored text for order 5; for any turns map with unique orders the
derived transcript is the entries sorted ascending by numeric order joined
with a single space; the empty map yields the empty transcript. -/
theorem turn_overwrite_sorted_join (m : TurnsMap)
    (hnd : (m.map Prod.fst).Nodup) :
    lookupTurn (applyTurn (applyTurn m 5 "foo") 5 "bar") 5 = "bar" ∧
    currentTranscript m = String.intercalate " " ((sortedTurns m).map Prod.snd) ∧
    currentTranscript [] = "" := by
  refine ⟨?_, currentTranscript_eq_sorted_join m hnd, rfl⟩
  simp [lookupTurn, lookup_applyTurn_self]

theorem turn_overwrite_sorted_join_witness :
    (([((1 : Nat), "hello"), ((2 : Nat), "world")] : TurnsMap).map Prod.fst).Nodup ∧
    lookupTurn (applyTurn (applyTurn [((1 : Nat), "hello"), ((2 : Nat), "world")] 5 "foo") 5 "bar") 5 = "bar" ∧
    currentTranscript [((1 : Nat), "hello"), ((2 : Nat), "world")] =
      String.intercalate " " ((sortedTurns [((1 : Nat), "hello"), ((2 : Nat), "world")]).map Prod.snd) ∧
    currentTranscript [] = "" :=
  ⟨by decide, turn_overwrite_sorted_join [((1 : Nat), "hello"), ((2 : Nat), "world")] (by decide)⟩

/-- C1: replaying any two permutations of the same finite set of
`(order, text)` pairs with unique orders through the Turn handler yields the
same transcript — arrival order is irrelevant. -/
theorem turn_order_invariance (L₁ L₂ : List (Nat × String))
    (hnd : (L₁.map Prod.fst).Nodup) (hp : L₁.Perm L₂) :
    currentTranscript (applyTurns L₁) = currentTranscript (applyTurns L₂) := by
  have hnd₂ : (L₂.map Prod.fst).Nodup := ((hp.map Prod.fst).nodup_iff).mp hnd
  rw [applyTurns_eq_self L₁ hnd, applyTurns_eq_self L₂ hnd₂]
  unfold currentTranscript
  have hs₁ : List.Sorted (· ≤ ·) (List.insertionSort (· ≤ ·) (L₁.map Prod.fst)) :=
    List.sorted_insertionSort (· ≤ ·) (L₁.map Prod.fst)
  have hs₂ : List.Sorted (· ≤ ·) (List.insertionSort (· ≤ ·) (L₂.map Prod.fst)) :=
    List.sorted_insertionSort (· ≤ ·) (L₂.map Prod.fst)
  have hperm : (List.insertionSort (· ≤ ·) (L₁.map Prod.fst)).Perm
      (List.insertionSort (· ≤ ·) (L₂.map Prod.fst)) :=
    (List.perm_insertionSort (· ≤ ·) (L₁.map Prod.fst)).trans
      ((hp.map Prod.fst).trans (List.perm_insertionSort (· ≤ ·) (L₂.map Prod.fst)).symm)
  have hkeys := List.eq_of_perm_of_sorted hperm hs₁ hs₂
  rw [hkeys]
  congr 1
  refine List.map_congr_left ?_
  intro k _
  simp only [lookupTurn]
  rw [lookup_perm L₁ L₂ hp hnd k]

theorem turn_order_invariance_witness :
    (([((2 : Nat), "world"), ((1 : Nat), "hello")] : List (Nat × String)).map Prod.fst).Nodup ∧
    ([((2 : Nat), "world"), ((1 : Nat), "hello")] : List (Nat × String)).Perm
      [((1 : Nat), "hello"), ((2 : Nat), "world")] ∧
    currentTranscript (applyTurns [((2 : Nat), "world"), ((1 : Nat), "hello")]) =
      currentTranscript (applyTurns [((1 : Nat), "hello"), ((2 : Nat), "world")]) :=
  ⟨by decide, by decide,
    turn_order_invariance [(2, "world"), (1, "hello")] [(1, "hello"), (2, "world")]
      (by decide) (by decide)⟩

lemma hasSub_iff (needle hay : List Char) : hasSub needle hay = true ↔ needle <:+: hay := by
  induction hay with
  | nil => simp [hasSub, List.isEmpty_iff, List.infix_nil]
  | cons c rest ih =>
    simp [hasSub, List.isPrefixOf_iff_prefix, ih, List.infix_cons_iff]

lemma infix_map (f : Char → Char) {l₁ l₂ : List Char} (h : l₁ <:+: l₂) :
    l₁.map f <:+: l₂.map f := by
  obtain ⟨s, u, rfl⟩ := h
  exact ⟨s.map f, u.map f, by simp⟩

lemma jsIncludes_mono {t t' w : String} (hext : t.toList <:+: t'.toList)
    (h : jsIncludes t w = true) : jsIncludes t' w = true := by
  unfold jsIncludes at h ⊢
  rw [hasSub_iff] at h ⊢
  exact h.trans hext

lemma eq_empty_of_toList_eq_nil {s : String} (h : s.toList = []) : s = "" := by
  cases s with
  | mk data =>
    have h' : data = [] := h
    subst h'
    rfl

lemma toLower_infix {t t' : String} (hext : t.toList <:+: t'.toList) :
    (jsToLower t).toList <:+: (jsToLower t').toList := by
  simpa [jsToLower] using infix_map Char.toLower hext

/-- Monotonicity of the heuristic in the transcript: once a question counts as
asked, it still counts as asked against any transcript that contains the old
one contiguously (in particular after appending further turns). -/
lemma questionAsked_mono (q t t' : String) (hext : t.toList <:+: t'.toList)
    (h : questionAskedInTranscript q t = true) :
    questionAskedInTranscript q t' = true := by
  unfold questionAskedInTranscript at h ⊢
  split at h
  · cases h
  next hguard =>
    push_neg at hguard
    obtain ⟨hq, ht, hlen⟩ := hguard
    have hlenle : t.toList.length ≤ t'.toList.length := hext.length_le
    have hteq : t.length = t.toList.length := rfl
    have hteq' : t'.length = t'.toList.length := rfl
    have ht' : t' ≠ "" := by
      intro he
      subst he
      have : t.toList = [] := by simpa [List.infix_nil] using hext
      exact ht (eq_empty_of_toList_eq_nil this)
    have hguard' : ¬ (q = "" ∨ t' = "" ∨ t'.length < 30) := by
      push_neg
      exact ⟨hq, ht', by omega⟩
    rw [if_neg hguard']
    have hlow := toLower_infix hext
    by_cases h15 : (normQ q).length < 15
    · rw [if_pos h15] at h ⊢
      exact jsIncludes_mono hlow h
    · rw [if_neg h15] at h ⊢
      by_cases hw : (sigWords (normQ q)).length < 2
      · rw [if_pos hw] at h ⊢
        exact jsIncludes_mono hlow h
      · rw [if_neg hw] at h ⊢
        rw [decide_eq_true_iff] at h ⊢
        obtain ⟨hmin, hfrac⟩ := h
        have hmc : matchCount (jsToLower t) (sigWords (normQ q)) ≤
            matchCount (jsToLower t') (sigWords (normQ q)) := by
          unfold matchCount
          rw [← List.countP_eq_length_filter, ← List.countP_eq_length_filter]
          exact List.countP_mono_left (fun w _ hw' => jsIncludes_mono hlow hw')
        exact ⟨by omega, by omega⟩

/-- C10: with a transcript shorter than 30 characters the heuristic reports
not-asked, whatever the question — even one appearing verbatim. -/
theorem short_transcript_no_promotion (question transcript : String)
    (h : transcript.length < 30) :
    questionAskedInTranscript question transcript = false := by
  unfold questionAskedInTranscript
  rw [if_pos (Or.inr (Or.inr h))]

theorem short_transcript_no_promotion_witness :
    ("did you hit your quota today" : String).length < 30 ∧
    jsIncludes (jsToLower "did you hit your quota today") (normQ "hit your quota?") = true ∧
    questionAskedInTranscript "hit your quota?" "did you hit your quota today" = false :=
  ⟨by decide, by decide,
    short_transcript_no_promotion "hit your quota?" "did you hit your quota today" (by decide)⟩

/-- C6 counterexample: on the question "What would you have had it be" (29
normalized characters, every word a stop word or at most 2 letters) and a
transcript not containing it, the source heuristic takes its
fewer-than-two-significant-words fallback and answers false, while the
predicate exactly as the claim words it answers true (its thresholds are
vacuous at zero significant words). -/
theorem question_heuristic_claim_cex :
    questionAskedInTranscript "What would you have had it be"
      "the candidate discussed revenue growth strategies" = false ∧
    questionAskedClaim "What would you have had it be"
      "the candidate discussed revenue growth strategies" = true := by
  constructor
  · decide
  · decide

/-- C6 amended: the heuristic lowercases both strings but punctuation-strips
and trims the question only; a normalized question under 15 characters is asked
iff it occurs verbatim in the lowercased transcript; one with fewer than two
significant words is asked iff its first 40 characters occur; otherwise it is
asked iff at least `min 3 n` of its `n` significant words and at least 35% of
them occur — and the quota scenario of the claim is marked asked. -/
theorem question_heuristic_characterization :
    (∀ question transcript : String,
        questionAskedInTranscript question transcript = true ↔
          (question ≠ "" ∧ transcript ≠ "" ∧ 30 ≤ transcript.length ∧
            (((normQ question).length < 15 ∧
                (normQ question).toList <:+: (jsToLower transcript).toList) ∨
             (15 ≤ (normQ question).length ∧ (sigWords (normQ question)).length < 2 ∧
                (normQ question).toList.take 40 <:+: (jsToLower transcript).toList) ∨
             (15 ≤ (normQ question).length ∧ 2 ≤ (sigWords (normQ question)).length ∧
                min 3 (sigWords (normQ question)).length ≤
                  matchCount (jsToLower transcript) (sigWords (normQ question)) ∧
                7 * (sigWords (normQ question)).length ≤
                  20 * matchCount (jsToLower transcript) (sigWords (normQ question)))))) ∧
    questionAskedInTranscript "Tell me about a time you missed a quota"
      "so tell me about a time when you missed your quota target" = true := by
  constructor
  · intro question transcript
    unfold questionAskedInTranscript
    split
    next hguard =>
      constructor
      · intro h
        cases h
      · rintro ⟨h1, h2, h3, -⟩
        rcases hguard with h | h | h
        · exact (h1 h).elim
        · exact (h2 h).elim
        · exact ((by omega : False)).elim
    next hguard =>
      push_neg at hguard
      obtain ⟨h1, h2, h3⟩ := hguard
      have h3' : 30 ≤ transcript.length := by omega
      by_cases h15 : (normQ question).length < 15
      · rw [if_pos h15]
        unfold jsIncludes
        rw [hasSub_iff]
        constructor
        · intro h
          exact ⟨h1, h2, h3', Or.inl ⟨h15, h⟩⟩
        · rintro ⟨-, -, -, ⟨-, h⟩ | ⟨ha, -, -⟩ | ⟨ha, -, -, -⟩⟩
          · exact h
          · exact absurd h15 (by omega)
          · exact absurd h15 (by omega)
      · rw [if_neg h15]
        by_cases hw : (sigWords (normQ question)).length < 2
        · rw [if_pos hw]
          unfold jsIncludes
          rw [hasSub_iff]
          constructor
          · intro h
            exact ⟨h1, h2, h3', Or.inr (Or.inl ⟨by omega, hw, h⟩)⟩
          · rintro ⟨-, -, -, ⟨ha, -⟩ | ⟨-, -, h⟩ | ⟨-, hb, -, -⟩⟩
            · exact absurd ha h15
            · exact h
            · exact absurd hb (by omega)
        · rw [if_neg hw]
          rw [decide_eq_true_iff]
          constructor
          · rintro ⟨hmin, hfrac⟩
            exact ⟨h1, h2, h3', Or.inr (Or.inr ⟨by omega, by omega, hmin, hfrac⟩)⟩
          · rintro ⟨-, -, -, ⟨ha, -⟩ | ⟨-, hb, -⟩ | ⟨-, -, hc, hd⟩⟩
            · exact absurd ha h15
            · exact absurd hb hw
            · exact ⟨hc, hd⟩
  · decide

/-- C7: reading the persisted snapshot offers it iff it is at most 24 hours
old: a snapshot (with the nonempty transcript every saved snapshot has)
strictly older than 24 hours is removed from storage and not offered; one at
most 24 hours old is offered exactly as saved. -/
theorem recovery_expiry (d : PendingReport) (now : Nat)
    (hv : d.transcript ≠ "") :
    ((now : Int) - (d.savedAt : Int) > (RETENTION_MS : Int) →
        getPendingReport (some d) now = (none, none)) ∧
    ((now : Int) - (d.savedAt : Int) ≤ (RETENTION_MS : Int) →
        getPendingReport (some d) now = (some d, some d)) := by
  constructor
  · intro h
    simp only [getPendingReport]
    rw [if_neg hv, if_pos h]
  · intro h
    simp only [getPendingReport]
    rw [if_neg hv, if_neg (by omega)]

theorem recovery_expiry_witness :
    getPendingReport
        (some ⟨"hello world", ["hello world"], some "a@b.co", "vp-sales", 1000⟩)
        86402000 = (none, none) ∧
    getPendingReport
        (some ⟨"hello world", ["hello world"], some "a@b.co", "vp-sales", 1000⟩)
        86401000 =
      (some ⟨"hello world", ["hello world"], some "a@b.co", "vp-sales", 1000⟩,
       some ⟨"hello world", ["hello world"], some "a@b.co", "vp-sales", 1000⟩) :=
  ⟨(recovery_expiry ⟨"hello world", ["hello world"], some "a@b.co", "vp-sales", 1000⟩
      86402000 (by decide)).1 (by decide),
   (recovery_expiry ⟨"hello world", ["hello world"], some "a@b.co", "vp-sales", 1000⟩
      86401000 (by decide)).2 (by decide)⟩

lemma sliceLast_toList (s : String) (n : Nat) :
    (sliceLast s n).toList = s.toList.drop (s.length - n) := rfl

lemma sliceLast_length (s : String) (n : Nat) :
    (sliceLast s n).length = s.toList.length - (s.length - n) := by
  show (s.toList.drop (s.length - n)).length = s.toList.length - (s.length - n)
  rw [List.length_drop]

lemma string_toList_append (a b : String) :
    (a ++ b).toList = a.toList ++ b.toList :=
  String.data_append a b

/-- C8: a transcript at most 36000 characters long is passed to the scoring
backend unchanged; a longer one is passed as exactly its trailing
36000-character tail (a suffix of the original of length 36000) followed by
the omission notice, which is a suffix of what is sent — never dropped. -/
theorem truncation_marker (t : String) :
    (t.length ≤ 36000 → transcriptForEval t = t) ∧
    (36000 < t.length →
      transcriptForEval t = sliceLast t 36000 ++ OMISSION_NOTICE ∧
      (sliceLast t 36000).length = 36000 ∧
      (sliceLast t 36000).toList <:+ t.toList ∧
      OMISSION_NOTICE.toList <:+ (transcriptForEval t).toList) := by
  constructor
  · intro h
    unfold transcriptForEval
    rw [if_pos (show t.length ≤ MAX_TRANSCRIPT_CHARS from h)]
  · intro h
    have hneg : ¬ t.length ≤ MAX_TRANSCRIPT_CHARS := by
      unfold MAX_TRANSCRIPT_CHARS
      omega
    have heq : transcriptForEval t = sliceLast t 36000 ++ OMISSION_NOTICE := by
      unfold transcriptForEval
      rw [if_neg hneg]
      rfl
    refine ⟨heq, ?_, ?_, ?_⟩
    · rw [sliceLast_length]
      have htl : t.toList.length = t.length := rfl
      omega
    · rw [sliceLast_toList]
      exact List.drop_suffix (t.length - 36000) t.toList
    · rw [heq, string_toList_append]
      exact List.suffix_append (sliceLast t 36000).toList OMISSION_NOTICE.toList

theorem truncation_marker_witness :
    transcriptForEval "short transcript" = "short transcript" ∧
    (transcriptForEval hugeTranscript =
        sliceLast hugeTranscript 36000 ++ OMISSION_NOTICE ∧
      (sliceLast hugeTranscript 36000).length = 36000 ∧
      (sliceLast hugeTranscript 36000).toList <:+ hugeTranscript.toList ∧
      OMISSION_NOTICE.toList <:+ (transcriptForEval hugeTranscript).toList) :=
  ⟨(truncation_marker "short transcript").1 (by decide),
   (truncation_marker hugeTranscript).2 (by
      show 36000 < (List.replicate 36001 'x').length
      rw [List.length_replicate]
      omega)⟩

/-- C9: with a nonblank transcript, the final-evaluation driver saves the
snapshot strictly before issuing the request; if the request fails the
snapshot saved at the start is exactly what remains in storage, whatever was
there before; if it succeeds, storage ends empty. -/
theorem final_eval_snapshot_lifecycle (transcript : String)
    (turns : List String) (recipientEmail : Option String)
    (selectedRole : String) (now : Nat) (outcome : Except String EvalResult)
    (h : jsTrim transcript ≠ "") :
    ∃ rest,
      runFinalEvaluation transcript turns recipientEmail selectedRole now outcome =
        FinalEvalEvent.savePending
            (savePendingReport transcript turns recipientEmail selectedRole now) ::
          FinalEvalEvent.request transcript turns selectedRole :: rest ∧
      (∀ e, outcome = Except.error e → ∀ st,
        replayStorage st
            (runFinalEvaluation transcript turns recipientEmail selectedRole now outcome) =
          some (savePendingReport transcript turns recipientEmail selectedRole now)) ∧
      (∀ r, outcome = Except.ok r → ∀ st,
        replayStorage st
            (runFinalEvaluation transcript turns recipientEmail selectedRole now outcome) =
          none) := by
  cases outcome with
  | ok r =>
    refine ⟨[FinalEvalEvent.clearPending,
             FinalEvalEvent.setFinalResult (FinalOutcome.success r)], ?_, ?_, ?_⟩
    · unfold runFinalEvaluation
      rw [if_neg h]
    · intro e he
      cases he
    · intro r' _ st
      unfold runFinalEvaluation
      rw [if_neg h]
      rfl
  | error e =>
    refine ⟨[FinalEvalEvent.setFinalResult (FinalOutcome.failure e)], ?_, ?_, ?_⟩
    · unfold runFinalEvaluation
      rw [if_neg h]
    · intro e' _ st
      unfold runFinalEvaluation
      rw [if_neg h]
      rfl
    · intro r he
      cases he

theorem final_eval_snapshot_lifecycle_witness :
    (∃ rest,
      runFinalEvaluation "hello" [] none "vp-sales" 5 (Except.error "boom") =
        FinalEvalEvent.savePending (savePendingReport "hello" [] none "vp-sales" 5) ::
          FinalEvalEvent.request "hello" [] "vp-sales" :: rest ∧
      (∀ e, (Except.error "boom" : Except String EvalResult) = Except.error e → ∀ st,
        replayStorage st
            (runFinalEvaluation "hello" [] none "vp-sales" 5 (Except.error "boom")) =
          some (savePendingReport "hello" [] none "vp-sales" 5)) ∧
      (∀ r, (Except.error "boom" : Except String EvalResult) = Except.ok r → ∀ st,
        replayStorage st
            (runFinalEvaluation "hello" [] none "vp-sales" 5 (Except.error "boom")) =
          none)) ∧
    (∃ rest,
      runFinalEvaluation "hello" [] none "vp-sales" 5 (Except.ok "report") =
        FinalEvalEvent.savePending (savePendingReport "hello" [] none "vp-sales" 5) ::
          FinalEvalEvent.request "hello" [] "vp-sales" :: rest ∧
      (∀ e, (Except.ok "report" : Except String EvalResult) = Except.error e → ∀ st,
        replayStorage st
            (runFinalEvaluation "hello" [] none "vp-sales" 5 (Except.ok "report")) =
          some (savePendingReport "hello" [] none "vp-sales" 5)) ∧
      (∀ r, (Except.ok "report" : Except String EvalResult) = Except.ok r → ∀ st,
        replayStorage st
            (runFinalEvaluation "hello" [] none "vp-sales" 5 (Except.ok "report")) =
          none)) :=
  ⟨final_eval_snapshot_lifecycle "hello" [] none "vp-sales" 5
      (Except.error "boom") (by decide),
   final_eval_snapshot_lifecycle "hello" [] none "vp-sales" 5
      (Except.ok "report") (by decide)⟩

/-- C2 counterexample: from a live state with no request outstanding, two
interval ticks with a qualifying transcript and no intervening resolution
leave TWO requests in flight — `fetchPartialEvaluation` has no single-flight
guard, so the claim that the second tick is skipped is false. -/
theorem scheduler_not_single_flight_cex :
    (runInterview initInterviewState
      [InterviewEvent.tick sampleTranscript]).inFlight = 1 ∧
    (runInterview initInterviewState
      [InterviewEvent.tick sampleTranscript,
       InterviewEvent.tick sampleTranscript]).inFlight = 2 := by
  constructor
  · decide
  · decide

/-- C2 amended: an interval tick whose transcript is nonblank and at least 60
characters long always issues a request — the in-flight count rises by one
regardless of how many requests are already outstanding, so overlapping
requests are possible (the only gate is the transcript precondition, and a
tick failing it is skipped, not queued). -/
theorem scheduler_tick_always_issues (s : InterviewState) (t : String)
    (h1 : jsTrim t ≠ "") (h2 : MIN_TRANSCRIPT_FOR_QUESTIONS ≤ t.length) :
    (stepInterview s (InterviewEvent.tick t)).inFlight = s.inFlight + 1 := by
  simp only [stepInterview]
  rw [if_neg (by push_neg; exact ⟨h1, by omega⟩)]

theorem scheduler_tick_always_issues_witness :
    jsTrim sampleTranscript ≠ "" ∧
    MIN_TRANSCRIPT_FOR_QUESTIONS ≤ sampleTranscript.length ∧
    (stepInterview ⟨true, 1, true, none, []⟩
      (InterviewEvent.tick sampleTranscript)).inFlight = 2 :=
  ⟨by decide, by decide,
   scheduler_tick_always_issues ⟨true, 1, true, none, []⟩ sampleTranscript
     (by decide) (by decide)⟩

/-- C3 counterexample: issue a request, stop the session, then let the
request resolve successfully: the late response IS merged — `partialResult`
and the suggested list are updated after stop has completed, so the claim
that it is discarded is false. -/
theorem late_response_applied_after_stop_cex :
    (runInterview initInterviewState
      [InterviewEvent.tick sampleTranscript, InterviewEvent.stop,
       InterviewEvent.resolve (Except.ok sampleApiResult)]).isConnected = false ∧
    (runInterview initInterviewState
      [InterviewEvent.tick sampleTranscript, InterviewEvent.stop,
       InterviewEvent.resolve (Except.ok sampleApiResult)]).liveEval =
      some (toLiveEval sampleApiResult) ∧
    (runInterview initInterviewState
      [InterviewEvent.tick sampleTranscript, InterviewEvent.stop,
       InterviewEvent.resolve (Except.ok sampleApiResult)]).suggestedFromApi =
      [⟨"What is your pipeline process?", false, none, none⟩] := by
  refine ⟨?_, ?_, ?_⟩
  · decide
  · decide
  · decide

/-- C3 amended: stopping tears the session down synchronously
(`isConnected := false`), but a partial-evaluation response that resolves
afterwards is still applied: with the session stopped and a request
outstanding, a successful resolution stores the response as `partialResult`
and replaces the suggested-question list — the code checks no still-live flag
before merging. -/
theorem late_response_applied (s : InterviewState) (r : ApiResult)
    (hstopped : s.isConnected = false) (hout : s.inFlight ≠ 0) :
    (stepInterview s (InterviewEvent.resolve (Except.ok r))).liveEval =
      some (toLiveEval r) ∧
    (stepInterview s (InterviewEvent.resolve (Except.ok r))).suggestedFromApi =
      toSuggestedList r ∧
    (stepInterview s (InterviewEvent.resolve (Except.ok r))).isConnected = false := by
  simp only [stepInterview]
  rw [if_neg hout]
  exact ⟨rfl, rfl, hstopped⟩

theorem late_response_applied_witness :
    (stepInterview ⟨false, 1, true, none, []⟩
      (InterviewEvent.resolve (Except.ok sampleApiResult))).liveEval =
      some (toLiveEval sampleApiResult) ∧
    (stepInterview ⟨false, 1, true, none, []⟩
      (InterviewEvent.resolve (Except.ok sampleApiResult))).suggestedFromApi =
      toSuggestedList sampleApiResult ∧
    (stepInterview ⟨false, 1, true, none, []⟩
      (InterviewEvent.resolve (Except.ok sampleApiResult))).isConnected = false :=
  late_response_applied ⟨false, 1, true, none, []⟩ sampleApiResult rfl
    (by decide)

/-- C4 counterexample: a question presented as asked (its list entry carries
`already_asked = true`) is presented as unasked by a later pass over the SAME
transcript once the list is replaced wholesale by a new PartialEvaluation
whose entry carries `already_asked = false` — the presented flag is
recomputed from scratch each pass, so the claimed monotonicity is false. -/
theorem asked_flag_downgrade_cex :
    (presentQuestions [⟨"Walk me through your sales process", true, none, none⟩]
        [] "").map (fun p => p.alreadyAsked) = [true] ∧
    (presentQuestions [⟨"Walk me through your sales process", false, none, none⟩]
        [] "").map (fun p => p.alreadyAsked) = [false] := by
  constructor
  · decide
  · decide

/-- C4 amended: the presented flag is monotone across passes provided the
entry's own `already_asked` flag is not downgraded by a list replacement and
the transcript evolves by extension (the old transcript occurs contiguously
in the new one): a question once presented as asked is then presented as
asked again. -/
theorem asked_flag_monotone (item item' : SQItem) (t t' : String)
    (hq : item'.question = item.question)
    (hflag : item.alreadyAsked = true → item'.alreadyAsked = true)
    (hext : t.toList <:+: t'.toList)
    (h : (presentQuestion item t).alreadyAsked = true) :
    (presentQuestion item' t').alreadyAsked = true := by
  unfold presentQuestion at h ⊢
  simp only [Bool.or_eq_true] at h ⊢
  rcases h with h | h
  · exact Or.inl (hflag h)
  · right
    rw [hq]
    exact questionAsked_mono item.question t t' hext h

theorem asked_flag_monotone_witness :
    (presentQuestion
      ⟨"Tell me about a time you missed a quota", false, none, none⟩
      "so tell me about a time when you missed your quota target").alreadyAsked
      = true ∧
    (presentQuestion
      ⟨"Tell me about a time you missed a quota", false, none, none⟩
      "so tell me about a time when you missed your quota target and then some").alreadyAsked
      = true :=
  ⟨by decide,
   asked_flag_monotone
     ⟨"Tell me about a time you missed a quota", false, none, none⟩
     ⟨"Tell me about a time you missed a quota", false, none, none⟩
     "so tell me about a time when you missed your quota target"
     "so tell me about a time when you missed your quota target and then some"
     rfl (fun hh => hh) (by decide) (by decide)⟩
